import Mathlib

/-!
Verification development for the `os` host-telemetry collectors
(packages `cpustat`, `fsstat`, `pidstat`, `misc`).

The Go sources are shallowly embedded below.  Go `float64` values are
modelled by `GoFloat`: exact rationals extended with signed infinities and a
NaN element, with the IEEE-754 special-value propagation rules (NaN is
absorbing, comparisons with NaN are false, division of a nonzero finite
value by zero gives a signed infinity, 0/0 gives NaN).  Rounding of finite
values is not modelled: all quantities appearing in the claims are small
integers and exact small ratios, where `float64` arithmetic is exact.
Negative zero is identified with zero; no claim distinguishes them.
-/

/-- Model of a Go `float64`: NaN, a signed infinity, or an exact finite
value. `inf true` is `+Inf`, `inf false` is `-Inf`. -/
inductive GoFloat where
  | nan : GoFloat
  | inf : Bool → GoFloat
  | num : ℚ → GoFloat
deriving DecidableEq, Repr

namespace GoFloat

/-- IEEE negation. -/
def neg : GoFloat → GoFloat
  | nan => nan
  | inf b => inf (!b)
  | num q => num (-q)

/-- IEEE addition (exact on finite values). -/
def add : GoFloat → GoFloat → GoFloat
  | nan, _ => nan
  | _, nan => nan
  | inf b, inf c => if b = c then inf b else nan
  | inf b, num _ => inf b
  | num _, inf c => inf c
  | num a, num b => num (a + b)

/-- IEEE subtraction, `a - b = a + (-b)`. -/
def sub (a b : GoFloat) : GoFloat := add a (neg b)

/-- IEEE multiplication (exact on finite values). -/
def mul : GoFloat → GoFloat → GoFloat
  | nan, _ => nan
  | _, nan => nan
  | inf b, inf c => inf (b = c)
  | inf b, num q => if q = 0 then nan else inf (b = decide (0 < q))
  | num q, inf c => if q = 0 then nan else inf (c = decide (0 < q))
  | num a, num b => num (a * b)

/-- IEEE division: `0/0 = NaN`, `q/0 = ±Inf` for `q ≠ 0`,
finite `/ Inf = 0`, `Inf / Inf = NaN`. -/
def div : GoFloat → GoFloat → GoFloat
  | nan, _ => nan
  | _, nan => nan
  | inf _, inf _ => nan
  | inf b, num q => inf (b = decide (0 ≤ q))
  | num _, inf _ => num 0
  | num a, num b =>
      if b = 0 then (if a = 0 then nan else inf (decide (0 < a)))
      else num (a / b)

instance : Neg GoFloat := ⟨neg⟩
instance : Add GoFloat := ⟨add⟩
instance : Sub GoFloat := ⟨sub⟩
instance : Mul GoFloat := ⟨mul⟩
instance : Div GoFloat := ⟨div⟩

/-- Go `==` on float64: any comparison with NaN is false. -/
def beq : GoFloat → GoFloat → Bool
  | nan, _ => false
  | _, nan => false
  | inf b, inf c => b = c
  | num a, num b => a = b
  | _, _ => false

/-- Go `!=` on float64: true whenever either side is NaN. -/
def bne (a b : GoFloat) : Bool := !(beq a b)

/-- Go `<` on float64: false whenever either side is NaN. -/
def lt : GoFloat → GoFloat → Bool
  | nan, _ => false
  | _, nan => false
  | inf b, inf c => !b && c
  | inf b, num _ => !b
  | num _, inf c => c
  | num a, num b => a < b

/-- Go `>` on float64: false whenever either side is NaN. -/
def gt (a b : GoFloat) : Bool := lt b a

end GoFloat

namespace Measure

/-- Modelled from the spec: `metrics.Counter` of the external
`github.com/measure/metrics` library (spec §2.1, §4.2).  A counter records
the history of `Set(value)` calls, each stamped with the wall-clock time of
the call; `hist` holds `(timestamp, value)` pairs, newest first.  All
`Set` calls made inside one collection pass carry that pass's timestamp. -/
structure Counter where
  hist : List (ℚ × ℚ)
deriving DecidableEq, Repr

/-- A freshly constructed counter: no `Set` has occurred. -/
def Counter.empty : Counter := ⟨[]⟩

/-- Modelled from the spec: `Counter.Set` records the value with the
current timestamp. -/
def Counter.set (c : Counter) (now v : ℚ) : Counter := ⟨(now, v) :: c.hist⟩

/-- Modelled from the spec: `Counter.Get` returns the last value set
(zero-valued before the first `Set`). -/
def Counter.get (c : Counter) : ℚ :=
  match c.hist with
  | (_, v) :: _ => v
  | [] => 0

/-- Modelled from the spec (§4.2): `Counter.ComputeRate` is
`(newValue - previousValue) / (now - previousTimestamp)`; it is NaN until
two `Set` calls have occurred, and NaN when the elapsed time is zero. -/
def Counter.computeRate (c : Counter) : GoFloat :=
  match c.hist with
  | (t2, v2) :: (t1, v1) :: _ =>
      if t2 = t1 then GoFloat.nan else GoFloat.num ((v2 - v1) / (t2 - t1))
  | _ => GoFloat.nan

/-- The timestamps of a counter's `Set` history, newest first. -/
def Counter.times (c : Counter) : List ℚ := c.hist.map Prod.fst

/-- Modelled from the spec: `metrics.Gauge` of the external metrics
library, a point-in-time float64 value holder (zero before the first
`Set`). -/
structure Gauge where
  val : GoFloat
deriving DecidableEq, Repr

/-- A freshly constructed gauge. -/
def Gauge.empty : Gauge := ⟨GoFloat.num 0⟩

/-- `Gauge.Set`. -/
def Gauge.set (_ : Gauge) (v : GoFloat) : Gauge := ⟨v⟩

/-- `Gauge.Get`. -/
def Gauge.get (g : Gauge) : GoFloat := g.val

end Measure

namespace Misc

/-- Numeric value of a decimal digit string. -/
def digitsVal (l : List Char) : ℕ :=
  l.foldl (fun a c => a * 10 + (c.toNat - 48)) 0

/-- Whether `strconv.ParseUint(s, 10, 64)` succeeds on `s`: the string is
nonempty, all characters are decimal digits, and the value fits in 64
bits. -/
def isGoUint (s : String) : Bool :=
  !s.data.isEmpty && s.data.all Char.isDigit && decide (digitsVal s.data < 2 ^ 64)

/-- `misc.ParseUint`: parse a base-10 unsigned 64-bit integer, returning 0
on any parse error. -/
def ParseUint (s : String) : ℕ :=
  if isGoUint s then digitsVal s.data else 0

/-- `misc.ReadUintFromFile`: the file's lines (`none` models an open
failure).  Returns `ParseUint` of the first line, and 0 when the file
cannot be opened or is empty. -/
def ReadUintFromFile (contents : Option (List String)) : ℕ :=
  match contents with
  | none => 0
  | some [] => 0
  | some (l :: _) => ParseUint l

end Misc

namespace CpustatLinux

/-- `cpustat.PerCPU` (cpustat_linux.go): the per-CPU counters parsed from a
`/proc/stat` cpu line, plus the computed percentage gauges. -/
structure PerCPU where
  User : Measure.Counter
  UserLowPrio : Measure.Counter
  System : Measure.Counter
  Idle : Measure.Counter
  Iowait : Measure.Counter
  Irq : Measure.Counter
  Softirq : Measure.Counter
  Steal : Measure.Counter
  Guest : Measure.Counter
  Total : Measure.Counter
  UserspacePct : Measure.Gauge
  KernelPct : Measure.Gauge
  UsagePct : Measure.Gauge
deriving DecidableEq, Repr

/-- `cpustat.NewPerCPU`: all counters freshly constructed. -/
def NewPerCPU : PerCPU :=
  ⟨.empty, .empty, .empty, .empty, .empty, .empty, .empty, .empty, .empty,
   .empty, .empty, .empty, .empty⟩

/-- `cpustat.parseCPUline`: set the nine field counters from the
whitespace-split fields of a `/proc/stat` cpu line, then set `Total`
from `User.Get() + UserLowPrio.Get() + System.Get() + Idle.Get()` of
the just-set values.  The counters hold uint64 values, so that sum is
uint64 addition and wraps modulo 2^64 when the four parsed fields sum to
2^64 or more.  Go indexes `f[1]`..`f[9]`, so a line with fewer than ten
fields panics (`none`). -/
def parseCPUline (s : PerCPU) (f : List String) (now : ℚ) : Option PerCPU :=
  match f with
  | _f0 :: f1 :: f2 :: f3 :: f4 :: f5 :: f6 :: f7 :: f8 :: f9 :: _ =>
    let vUser := Misc.ParseUint f1
    let vUserLowPrio := Misc.ParseUint f2
    let vSystem := Misc.ParseUint f3
    let vIdle := Misc.ParseUint f4
    let user := s.User.set now vUser
    let userLowPrio := s.UserLowPrio.set now vUserLowPrio
    let system := s.System.set now vSystem
    let idle := s.Idle.set now vIdle
    let iowait := s.Iowait.set now (Misc.ParseUint f5)
    let irq := s.Irq.set now (Misc.ParseUint f6)
    let softirq := s.Softirq.set now (Misc.ParseUint f7)
    let steal := s.Steal.set now (Misc.ParseUint f8)
    let guest := s.Guest.set now (Misc.ParseUint f9)
    -- the four Gets return exactly the uint64 values just Set; their Go
    -- sum is uint64 addition, modelled with the explicit mod 2^64
    let total := s.Total.set now
      (((vUser + vUserLowPrio + vSystem + vIdle) % 2 ^ 64 : ℕ))
    some { s with
      User := user, UserLowPrio := userLowPrio, System := system,
      Idle := idle, Iowait := iowait, Irq := irq, Softirq := softirq,
      Steal := steal, Guest := guest, Total := total }
  | _ => none

/-- `PerCPU.Usage` (cpustat_linux.go:134): note that in Go every
`x != math.NaN()` comparison is identically true, so only `t > 0` can
make the guard fail. -/
def PerCPU.Usage (o : PerCPU) : GoFloat :=
  let u := o.User.computeRate
  let n := o.UserLowPrio.computeRate
  let s := o.System.computeRate
  let t := o.Total.computeRate
  if u.bne .nan && n.bne .nan && s.bne .nan && t.bne .nan &&
      t.gt (.num 0) then
    (u + s + n) / t * .num 100
  else .nan

/-- `PerCPU.UserSpace` (cpustat_linux.go:149). -/
def PerCPU.UserSpace (o : PerCPU) : GoFloat :=
  let u := o.User.computeRate
  let n := o.UserLowPrio.computeRate
  let t := o.Total.computeRate
  if u.bne .nan && t.bne .nan && n.bne .nan && t.gt (.num 0) then
    (u + n) / t * .num 100
  else .nan

/-- `PerCPU.Kernel` (cpustat_linux.go:161). -/
def PerCPU.Kernel (o : PerCPU) : GoFloat :=
  let s := o.System.computeRate
  let t := o.Total.computeRate
  if s.bne .nan && t.bne .nan && t.gt (.num 0) then
    (s / t) * .num 100
  else .nan

/-- `cpustat.populateComputedStats`: store the derived percentages in the
gauges. -/
def populateComputedStats (s : PerCPU) : PerCPU :=
  { s with UserspacePct := s.UserspacePct.set s.UserSpace,
           KernelPct := s.KernelPct.set s.Kernel,
           UsagePct := s.UsagePct.set s.Usage }

/-- One `/proc/stat` cpu line processed by `CPUStat.Collect` for an
existing entity: `parseCPUline` followed by `populateComputedStats`. -/
def collectLine (s : PerCPU) (f : List String) (now : ℚ) : Option PerCPU :=
  (parseCPUline s f now).map populateComputedStats

/-- The states a `PerCPU` entity can reach: freshly constructed by
`NewPerCPU`, then updated once per collection pass by a `/proc/stat`
line. -/
inductive Reach : PerCPU → Prop where
  | init : Reach NewPerCPU
  | step {s s2 : PerCPU} (f : List String) (now : ℚ) :
      Reach s → collectLine s f now = some s2 → Reach s2

end CpustatLinux

namespace CpustatDarwin

/-- `cpustat.PerCPU` of the Mach backend: only the four tick counters and
their sum are available. -/
structure PerCPU where
  User : Measure.Counter
  UserLowPrio : Measure.Counter
  System : Measure.Counter
  Idle : Measure.Counter
  Total : Measure.Counter
deriving DecidableEq, Repr

/-- `cpustat.PerCPUNew`. -/
def PerCPUNew : PerCPU := ⟨.empty, .empty, .empty, .empty, .empty⟩

/-- The `host_cpu_load_info_data_t` tick values returned by
`host_statistics`; each `cpu_ticks` entry is a `natural_t` (uint32), so
a faithful input has every field below 2^32. -/
structure HostCpuLoadInfo where
  userTicks : ℕ
  niceTicks : ℕ
  systemTicks : ℕ
  idleTicks : ℕ
deriving DecidableEq, Repr

/-- `CPUStat.Collect` of the Mach backend: `none` models a non-success
`host_statistics` return (the pass is skipped); otherwise the four
counters are set from the tick array and `Total` is set to the uint64
sum user + system + nice + idle (modelled with the explicit mod 2^64;
four uint32 tick values can never actually reach it). -/
def Collect (s : PerCPU) (info : Option HostCpuLoadInfo) (now : ℚ) : PerCPU :=
  match info with
  | none => s
  | some i =>
    { User := s.User.set now i.userTicks,
      UserLowPrio := s.UserLowPrio.set now i.niceTicks,
      System := s.System.set now i.systemTicks,
      Idle := s.Idle.set now i.idleTicks,
      Total := s.Total.set now
        (((i.userTicks + i.systemTicks + i.niceTicks + i.idleTicks) %
          2 ^ 64 : ℕ)) }

/-- Mach-backend `PerCPU.Usage`: the Go guard omits the
`n != math.NaN()` conjunct present on Linux (all such conjuncts are
identically true anyway). -/
def PerCPU.Usage (o : PerCPU) : GoFloat :=
  let u := o.User.computeRate
  let n := o.UserLowPrio.computeRate
  let s := o.System.computeRate
  let t := o.Total.computeRate
  if u.bne .nan && s.bne .nan && t.bne .nan && t.gt (.num 0) then
    (u + s + n) / t * .num 100
  else .nan

/-- Mach-backend `PerCPU.UserSpace`. -/
def PerCPU.UserSpace (o : PerCPU) : GoFloat :=
  let u := o.User.computeRate
  let n := o.UserLowPrio.computeRate
  let t := o.Total.computeRate
  if u.bne .nan && t.bne .nan && n.bne .nan && t.gt (.num 0) then
    (u + n) / t * .num 100
  else .nan

/-- Mach-backend `PerCPU.Kernel`. -/
def PerCPU.Kernel (o : PerCPU) : GoFloat :=
  let s := o.System.computeRate
  let t := o.Total.computeRate
  if s.bne .nan && t.bne .nan && t.gt (.num 0) then
    (s / t) * .num 100
  else .nan

/-- The states the Mach-backend aggregate CPU entity can reach: freshly
constructed, then updated once per tick by `Collect`. -/
inductive Reach : PerCPU → Prop where
  | init : Reach PerCPUNew
  | step {s : PerCPU} (info : Option HostCpuLoadInfo) (now : ℚ) :
      Reach s → Reach (Collect s info now)

end CpustatDarwin

namespace Registry

/-- Go map lookup `reg[k]`, for registries modelled as association
lists. -/
def lookupA {α : Type} : List (String × α) → String → Option α
  | [], _ => none
  | (k, v) :: t, key => if k = key then some v else lookupA t key

/-- Go map write `reg[k] = v`: replace in place if the key is present,
append otherwise. -/
def insertA {α : Type} : List (String × α) → String → α → List (String × α)
  | [], key, v => [(key, v)]
  | (k, w) :: t, key, v =>
      if k = key then (k, v) :: t else (k, w) :: insertA t key v

/-- The key set of a registry. -/
def keysA {α : Type} (l : List (String × α)) : List String := l.map Prod.fst

end Registry

namespace Fsstat

/-- The `syscall.Statfs_t` fields consumed by `PerFSStat.Collect`. -/
structure StatfsData where
  bsize : ℚ
  blocks : ℚ
  bfree : ℚ
  bavail : ℚ
  files : ℚ
  ffree : ℚ
deriving DecidableEq, Repr

/-- `fsstat.perFSStatMetrics` with the mount path: the six gauges filled
in from `statfs`. -/
structure PerFSStat where
  Bsize : Measure.Gauge
  Blocks : Measure.Gauge
  Bfree : Measure.Gauge
  Bavail : Measure.Gauge
  Files : Measure.Gauge
  Ffree : Measure.Gauge
  mp : String
deriving DecidableEq, Repr

/-- `fsstat.NewPerFSStat`. -/
def NewPerFSStat (mp : String) : PerFSStat :=
  ⟨.empty, .empty, .empty, .empty, .empty, .empty, mp⟩

/-- `PerFSStat.Collect`: `none` models a failing `statfs` call (the
entity's gauges are left untouched); on success all six gauges are set. -/
def PerFSStat.CollectFS (s : PerFSStat) (d : Option StatfsData) : PerFSStat :=
  match d with
  | none => s
  | some b =>
    { s with
      Bsize := s.Bsize.set (.num b.bsize), Blocks := s.Blocks.set (.num b.blocks),
      Bfree := s.Bfree.set (.num b.bfree), Bavail := s.Bavail.set (.num b.bavail),
      Files := s.Files.set (.num b.files), Ffree := s.Ffree.set (.num b.ffree) }

/-- `PerFSStat.Usage` (both fsstat variants):
`(Blocks - Bfree) / Blocks * 100`, with no guard on `Blocks = 0`. -/
def PerFSStat.Usage (s : PerFSStat) : GoFloat :=
  let total := s.Blocks.get
  let free := s.Bfree.get
  ((total - free) / total) * .num 100

/-- `PerFSStat.FileUsage`: `(Files - Ffree) / Files * 100`. -/
def PerFSStat.FileUsage (s : PerFSStat) : GoFloat :=
  let total := s.Files.get
  let free := s.Ffree.get
  ((total - free) / total) * .num 100

/-- Device types skipped by `FSStat.Collect`. -/
def devExcluded (f0 : String) : Bool :=
  f0 = "proc" || f0 = "sysfs" || f0 = "devpts" || f0 = "none" || f0 = "sunrpc"

/-- Mount options skipped by `FSStat.Collect`. -/
def optExcluded (f3 : String) : Bool :=
  f3 = "swap" || f3 = "bind" || f3 = "ignore" || f3 = "none"

/-- One `/etc/mtab` line processed by `FSStat.Collect`
(cpustat_linux.go:233).  `f` is the line already split on single spaces
by `strings.Split` (Go stdlib, external).  Skip excluded device types
(field 0) and mount kinds (field 3), key the registry by the mount point
(field 1), create the entity on first sight, and run its `statfs`
collection.  Accessing field 3 of a line with fewer than four fields
panics (`none`); a split line always has at least one field.  `stat`
supplies the `statfs` outcome per mount path. -/
def lineStep (stat : String → Option StatfsData)
    (reg : List (String × PerFSStat)) (f : List String) :
    Option (List (String × PerFSStat)) :=
  match f with
  | f0 :: rest =>
    if devExcluded f0 then some reg
    else
      match rest with
      | f1 :: _f2 :: f3 :: _ =>
        if optExcluded f3 then some reg
        else
          let o := match Registry.lookupA reg f1 with
            | some o => o
            | none => NewPerFSStat f1
          some (Registry.insertA reg f1 (o.CollectFS (stat f1)))
      | _ => none
  | [] => none

/-- `FSStat.Collect`: `none` for `mtab` models a failed open of
`/etc/mtab` (registry unchanged); otherwise every (pre-split) line is
processed in order.  The result is `none` when some line panics.  Note
there is no mark or sweep phase: entities are never removed. -/
def Collect (reg : List (String × PerFSStat))
    (mtab : Option (List (List String))) (stat : String → Option StatfsData) :
    Option (List (String × PerFSStat)) :=
  match mtab with
  | none => some reg
  | some lines => lines.foldlM (lineStep stat) reg

/-- The mount-point key contributed by one accepted (pre-split)
`/etc/mtab` line (`none` when the line is skipped by the exclusion
filters or too short to reach the key). -/
def acceptedKey (f : List String) : Option String :=
  match f with
  | f0 :: f1 :: _f2 :: f3 :: _ =>
    if devExcluded f0 || optExcluded f3 then none else some f1
  | _ => none

end Fsstat

namespace Cgroup

/-- `cpustat.PerCgroupStat` (the variant with per-task cpu times,
pidstat_darwin.go:493): raw counters from `cpu.stat`, the two cfs gauges,
the aggregated task user/system tick counters, and the computed
percentage gauges. -/
structure PerCgroupStat where
  Nr_periods : Measure.Counter
  Nr_throttled : Measure.Counter
  Throttled_time : Measure.Counter
  Cfs_period_us : Measure.Gauge
  Cfs_quota_us : Measure.Gauge
  Utime : Measure.Counter
  Stime : Measure.Counter
  UsagePct : Measure.Gauge
  UserspacePct : Measure.Gauge
  KernelPct : Measure.Gauge
  path : String
deriving DecidableEq, Repr

/-- `cpustat.NewPerCgroupStat`. -/
def NewPerCgroupStat (path : String) : PerCgroupStat :=
  ⟨.empty, .empty, .empty, .empty, .empty, .empty, .empty, .empty, .empty,
   .empty, path⟩

/-- `PerCgroupStat.Throttle`: `Throttled_time` rate over nanoseconds per
second, times 100. -/
def PerCgroupStat.Throttle (s : PerCgroupStat) : GoFloat :=
  let throttled_sec := s.Throttled_time.computeRate
  (throttled_sec / .num 1000000000) * .num 100

/-- `PerCgroupStat.Quota` (pidstat_darwin.go:531): the raw ratio of the
two cfs gauges. -/
def PerCgroupStat.Quota (s : PerCgroupStat) : GoFloat :=
  s.Cfs_quota_us.get / s.Cfs_period_us.get

/-- `PerCgroupStat.Usage`: `(Utime rate + Stime rate) * 100 / CLK_TCK`.
`ticks` is the runtime constant `LINUX_TICKS_IN_SEC`
(`sysconf(_SC_CLK_TCK)`). -/
def PerCgroupStat.Usage (s : PerCgroupStat) (ticks : ℚ) : GoFloat :=
  let rate_per_sec := s.Utime.computeRate + s.Stime.computeRate
  (rate_per_sec * .num 100) / .num ticks

/-- `PerCgroupStat.Userspace`: `Utime rate * 100 / CLK_TCK`. -/
def PerCgroupStat.Userspace (s : PerCgroupStat) (ticks : ℚ) : GoFloat :=
  let rate_per_sec := s.Utime.computeRate
  (rate_per_sec * .num 100) / .num ticks

/-- `PerCgroupStat.Kernel` (pidstat_darwin.go:551), translated exactly as
written: the body reads `s.Utime.ComputeRate()`, the user tick rate, not
`s.Stime`. -/
def PerCgroupStat.Kernel (s : PerCgroupStat) (ticks : ℚ) : GoFloat :=
  let rate_per_sec := s.Utime.computeRate
  (rate_per_sec * .num 100) / .num ticks

/-- The `cpu.cfs_period_us` / `cpu.cfs_quota_us` portion of
`PerCgroupStat.Collect` (pidstat_darwin.go:582): both gauges are set to
the (float-converted) result of `misc.ReadUintFromFile`. -/
def collectCfsFiles (s : PerCgroupStat)
    (periodFile quotaFile : Option (List String)) : PerCgroupStat :=
  { s with
    Cfs_period_us := s.Cfs_period_us.set
      (.num (Misc.ReadUintFromFile periodFile)),
    Cfs_quota_us := s.Cfs_quota_us.set
      (.num (Misc.ReadUintFromFile quotaFile)) }

/-- `cpustat.getCPUTimes`: read `/proc/<pid>/stat` (`none` models a
failed open, yielding `(0, 0)`); each line is given already split on
single spaces by `strings.Split` (Go stdlib, external), and fields 13
and 14 are parsed as the user and system tick counts, the last line
winning.  Accessing a field past the end of the line panics (`none`
overall). -/
def getCPUTimes (statFile : Option (List (List String))) : Option (ℕ × ℕ) :=
  match statFile with
  | none => some (0, 0)
  | some lines =>
    lines.foldlM
      (fun _acc f =>
        match f.get? 13, f.get? 14 with
        | some a, some b => some (Misc.ParseUint a, Misc.ParseUint b)
        | _, _ => none)
      ((0 : ℕ), (0 : ℕ))

/-- `PerCgroupStat.getCgroupCPUTimes` (pidstat_darwin.go:598): sum the
per-process user and system tick counts over every pid listed in the
cgroup's `cgroup.procs` file, then set the `Utime` and `Stime` counters
to the sums.  `procs = none` models a failed open of `cgroup.procs`
(counters untouched); each list entry is that pid's `/proc/<pid>/stat`
content. -/
def getCgroupCPUTimes (s : PerCgroupStat)
    (procs : Option (List (Option (List (List String))))) (now : ℚ) :
    Option PerCgroupStat :=
  match procs with
  | none => some s
  | some files =>
    match files.foldlM
        (fun acc file =>
          (getCPUTimes file).map (fun uv => (acc.1 + uv.1, acc.2 + uv.2)))
        ((0 : ℕ), (0 : ℕ)) with
    | none => none
    | some (u, st) =>
      some { s with Utime := s.Utime.set now u, Stime := s.Stime.set now st }

end Cgroup

namespace Pidstat

/-- The process attributes fetched once per process by
`CollectAttributes` (a `sysctl` call plus a `user.LookupId`);
`username = none` models a failing user lookup, which leaves the stored
user name unchanged. -/
structure ProcAttrs where
  comm : String
  uid : Int
  username : Option String
deriving DecidableEq, Repr

/-- The `mach_task_basic_info` fields consumed by `Collect`. -/
structure MachTaskBasicInfo where
  virtualSize : ℚ
  residentSize : ℚ
  residentSizeMax : ℚ
deriving DecidableEq, Repr

/-- The `task_absolutetime_info` fields consumed by `Collect`, already
converted to nanoseconds by `absolute_to_nano` (the Mach timebase
conversion is an external constant-factor multiplication). -/
structure TaskAbsolutetimeInfo where
  totalUserNs : ℚ
  totalSystemNs : ℚ
deriving DecidableEq, Repr

/-- One kernel task as seen during a `ProcessStat.Collect` pass.  Each
`Option` field models the success or failure of the corresponding Mach
call: `pidForTask` is the `pid_for_task` translation, `basicInfo` the
`MACH_TASK_BASIC_INFO` read, `absoluteInfo` the `TASK_ABSOLUTETIME_INFO`
read. -/
structure TaskInfo where
  pidForTask : Option Int
  basicInfo : Option MachTaskBasicInfo
  absoluteInfo : Option TaskAbsolutetimeInfo
  attrs : ProcAttrs
deriving DecidableEq, Repr

/-- `pidstat.PerProcessStat` with its metrics struct inlined. -/
structure PerProcessStat where
  pid : String
  uid : Int
  username : String
  comm : String
  VirtualSize : Measure.Gauge
  ResidentSize : Measure.Gauge
  ResidentSizeMax : Measure.Gauge
  UserTime : Measure.Counter
  SystemTime : Measure.Counter
  dead : Bool
deriving DecidableEq, Repr

/-- `pidstat.NewPerProcessStat`: Go zero values everywhere except the
pid; in particular `dead` starts out false. -/
def NewPerProcessStat (p : String) : PerProcessStat :=
  ⟨p, 0, "", "", .empty, .empty, .empty, .empty, .empty, false⟩

/-- `PerProcessStat.CollectAttributes`: store command name and uid from
the `kinfo_proc` record; the user name only when the lookup succeeds. -/
def CollectAttributes (s : PerProcessStat) (a : ProcAttrs) : PerProcessStat :=
  { s with comm := a.comm, uid := a.uid,
           username := match a.username with
             | some u => u
             | none => s.username }

/-- The registry key a task contributes: the decimal rendering of its
pid, or `none` when `pid_for_task` fails or returns a negative pid. -/
def taskKey (t : TaskInfo) : Option String :=
  match t.pidForTask with
  | none => none
  | some p => if p < 0 then none else some (toString p)

/-- The per-task body of `ProcessStat.Collect` (pidstat_darwin.go:137):
skip the task when pid translation or the basic-info read fails;
otherwise find or create the registry entry, fetch attributes when
requested or on first sight, set the three memory gauges, and — only if
the absolutetime read also succeeds — set the two time counters and
clear the `dead` flag. -/
def collectStep (now : ℚ) (cAttr : Bool)
    (reg : List (String × PerProcessStat)) (t : TaskInfo) :
    List (String × PerProcessStat) :=
  match taskKey t with
  | none => reg
  | some spid =>
    match t.basicInfo with
    | none => reg
    | some b =>
      let found := Registry.lookupA reg spid
      let p0 := match found with
        | some p => p
        | none => NewPerProcessStat spid
      let p1 := if cAttr || found.isNone then CollectAttributes p0 t.attrs else p0
      let p2 := { p1 with
        VirtualSize := p1.VirtualSize.set (.num b.virtualSize),
        ResidentSize := p1.ResidentSize.set (.num b.residentSize),
        ResidentSizeMax := p1.ResidentSizeMax.set (.num b.residentSizeMax) }
      match t.absoluteInfo with
      | none => Registry.insertA reg spid p2
      | some a =>
        Registry.insertA reg spid
          { p2 with
            UserTime := p2.UserTime.set now a.totalUserNs,
            SystemTime := p2.SystemTime.set now a.totalSystemNs,
            dead := false }

/-- `ProcessStat.Collect` (pidstat_darwin.go:99): mark every tracked
process dead; if any of the three host-level calls fails
(`hostCallsOk = false`) return with no further change; otherwise process
the task list and finally delete every entry still marked dead. -/
def Collect (reg : List (String × PerProcessStat)) (hostCallsOk : Bool)
    (tasks : List TaskInfo) (now : ℚ) (cAttr : Bool) :
    List (String × PerProcessStat) :=
  let marked := reg.map (fun kv => (kv.1, { kv.2 with dead := true }))
  if hostCallsOk then
    (tasks.foldl (collectStep now cAttr) marked).filter
      (fun kv => !kv.2.dead)
  else marked

/-- `PerProcessStat.CPUUsage`: `(UserTime rate + SystemTime rate) / 1e9 *
100`, with `NS` the nanoseconds-per-second constant. -/
def PerProcessStat.CPUUsage (s : PerProcessStat) : GoFloat :=
  let rate_ns := s.UserTime.computeRate + s.SystemTime.computeRate
  (rate_ns / .num 1000000000) * .num 100

/-- The ticker-loop schedule of `NewProcessStat` (pidstat_darwin.go:71):
whether tick `n` (zero-based), with `trackedCount` processes currently in
the registry, runs `Collect(true)` (the attribute-refreshing pass). -/
def tickDoesAttrPass (n : ℕ) : Bool := n == 0

/-- Whether tick `n` runs `Collect(false)` (the metric pass):
`p < 1 || n % p == 0` with `p = trackedCount / 1024` (integer division;
the short-circuit `||` protects the modulus). -/
def tickDoesMetricPass (n trackedCount : ℕ) : Bool :=
  let p := trackedCount / 1024
  decide (p < 1) || (n % p == 0)

end Pidstat

namespace GoFloat

theorem add_def (a b : GoFloat) : a + b = a.add b := rfl

theorem sub_def (a b : GoFloat) : a - b = a.sub b := rfl

theorem mul_def (a b : GoFloat) : a * b = a.mul b := rfl

theorem div_def (a b : GoFloat) : a / b = a.div b := rfl

@[simp] theorem beq_nan_right (x : GoFloat) : x.beq nan = false := by
  cases x <;> rfl

@[simp] theorem bne_nan_right (x : GoFloat) : x.bne nan = true := by
  simp [bne]

@[simp] theorem num_add_num_eq (a b : ℚ) :
    GoFloat.num a + GoFloat.num b = GoFloat.num (a + b) := rfl

@[simp] theorem num_sub_num_eq (a b : ℚ) :
    GoFloat.num a - GoFloat.num b = GoFloat.num (a - b) := by
  show GoFloat.num (a + -b) = GoFloat.num (a - b)
  rw [sub_eq_add_neg]

@[simp] theorem num_mul_num_eq (a b : ℚ) :
    GoFloat.num a * GoFloat.num b = GoFloat.num (a * b) := rfl

theorem num_div_num_eq (a b : ℚ) (h : b ≠ 0) :
    GoFloat.num a / GoFloat.num b = GoFloat.num (a / b) := by
  rw [div_def]
  simp [div, h]

@[simp] theorem gt_num_num (a b : ℚ) :
    (GoFloat.num a).gt (GoFloat.num b) = decide (b < a) := rfl

@[simp] theorem gt_nan_left (b : GoFloat) : GoFloat.nan.gt b = false := by
  cases b <;> rfl

@[simp] theorem lt_num_num (a b : ℚ) :
    (GoFloat.num a).lt (GoFloat.num b) = decide (a < b) := rfl

theorem nan_add (b : GoFloat) : GoFloat.nan + b = nan := by
  cases b <;> rfl

theorem add_nan (a : GoFloat) : a + GoFloat.nan = nan := by
  cases a <;> rfl

theorem nan_div (b : GoFloat) : GoFloat.nan / b = nan := by
  cases b <;> rfl

theorem nan_mul (b : GoFloat) : GoFloat.nan * b = nan := by
  cases b <;> rfl

theorem num_div_zero_ne (a : ℚ) (h : a ≠ 0) :
    GoFloat.num a / GoFloat.num 0 = GoFloat.inf (decide (0 < a)) := by
  rw [div_def]
  simp [div, h]

theorem inf_mul_num_pos (b : Bool) (q : ℚ) (h : 0 < q) :
    GoFloat.inf b * GoFloat.num q = GoFloat.inf b := by
  rw [mul_def]
  simp only [mul]
  rw [if_neg (ne_of_gt h)]
  cases b <;> simp [h]

end GoFloat

namespace Measure

@[simp] theorem Counter.times_set (c : Counter) (now v : ℚ) :
    (c.set now v).times = now :: c.times := rfl

@[simp] theorem Counter.times_empty : Counter.empty.times = [] := rfl

/-- A counter whose set-history has fewer than two entries, or whose two
most recent timestamps coincide, has rate NaN; otherwise its rate is a
finite rational.  Rate NaN-ness therefore depends only on the timestamps. -/
theorem Counter.computeRate_nan_iff (c : Counter) :
    c.computeRate = GoFloat.nan ↔
      (match c.times with
       | t2 :: t1 :: _ => t2 = t1
       | _ => True) := by
  rcases c with ⟨hist⟩
  rcases hist with _ | ⟨⟨t2, v2⟩, _ | ⟨⟨t1, v1⟩, tl⟩⟩
  · simp [Counter.computeRate, Counter.times]
  · simp [Counter.computeRate, Counter.times]
  · by_cases h : t2 = t1 <;> simp [Counter.computeRate, Counter.times, h]

/-- Counters with identical set-timestamps have NaN rates together. -/
theorem Counter.computeRate_nan_congr (c d : Counter)
    (h : c.times = d.times) :
    c.computeRate = GoFloat.nan ↔ d.computeRate = GoFloat.nan := by
  rw [Counter.computeRate_nan_iff, Counter.computeRate_nan_iff, h]

end Measure

namespace Misc

theorem ParseUint_of_not_isGoUint (s : String) (h : isGoUint s = false) :
    ParseUint s = 0 := by
  simp [ParseUint, h]

end Misc

namespace Registry

variable {α : Type}

@[simp] theorem keysA_nil : keysA ([] : List (String × α)) = [] := rfl

@[simp] theorem keysA_cons (k : String) (v : α) (l : List (String × α)) :
    keysA ((k, v) :: l) = k :: keysA l := rfl

theorem mem_keysA {l : List (String × α)} {k : String} :
    k ∈ keysA l ↔ ∃ v, (k, v) ∈ l := by
  simp only [keysA, List.mem_map]
  constructor
  · rintro ⟨⟨a, b⟩, hm, rfl⟩
    exact ⟨b, hm⟩
  · rintro ⟨v, hv⟩
    exact ⟨(k, v), hv, rfl⟩

theorem lookupA_eq_none {l : List (String × α)} {k : String} :
    lookupA l k = none ↔ k ∉ keysA l := by
  induction l with
  | nil => simp [lookupA, keysA]
  | cons kv t ih =>
    rcases kv with ⟨k2, v2⟩
    by_cases h : k2 = k
    · subst h
      simp [lookupA]
    · simp [lookupA, h, Ne.symm h, ih]

theorem lookupA_mem {l : List (String × α)} {k : String} {v : α}
    (h : lookupA l k = some v) : (k, v) ∈ l := by
  induction l with
  | nil => simp [lookupA] at h
  | cons kv t ih =>
    rcases kv with ⟨k2, v2⟩
    by_cases h2 : k2 = k
    · subst h2
      simp [lookupA] at h
      subst h
      exact List.mem_cons_self _ _
    · simp [lookupA, h2] at h
      exact List.mem_cons_of_mem _ (ih h)

theorem mem_lookupA {l : List (String × α)} {k : String} {v : α}
    (nd : (keysA l).Nodup) (h : (k, v) ∈ l) : lookupA l k = some v := by
  induction l with
  | nil => simp at h
  | cons kv t ih =>
    rcases kv with ⟨k2, v2⟩
    simp only [keysA_cons, List.nodup_cons] at nd
    rcases List.mem_cons.mp h with h1 | h1
    · injection h1 with e1 e2
      subst e1; subst e2
      simp [lookupA]
    · have hk : k2 ≠ k := by
        rintro rfl
        exact nd.1 (mem_keysA.mpr ⟨v, h1⟩)
      simp [lookupA, hk]
      exact ih nd.2 h1

@[simp] theorem lookupA_insertA_self (l : List (String × α)) (k : String) (v : α) :
    lookupA (insertA l k v) k = some v := by
  induction l with
  | nil => simp [insertA, lookupA]
  | cons kv t ih =>
    rcases kv with ⟨k2, v2⟩
    by_cases h : k2 = k <;> simp [insertA, lookupA, h, ih]

theorem lookupA_insertA_ne (l : List (String × α)) {k k2 : String} (v : α)
    (h : k2 ≠ k) : lookupA (insertA l k2 v) k = lookupA l k := by
  induction l with
  | nil => simp [insertA, lookupA, h]
  | cons kv t ih =>
    rcases kv with ⟨k3, v3⟩
    by_cases h3 : k3 = k2
    · subst h3
      simp [insertA, lookupA, h]
    · by_cases h4 : k3 = k <;>
        simp [insertA, lookupA, h3, h4, Ne.symm h, ih]

theorem mem_keysA_insertA {l : List (String × α)} {k2 : String} {v : α}
    {k : String} : k ∈ keysA (insertA l k2 v) ↔ k ∈ keysA l ∨ k = k2 := by
  induction l with
  | nil => simp [insertA, keysA, eq_comm]
  | cons kv t ih =>
    rcases kv with ⟨k3, v3⟩
    by_cases h : k3 = k2
    · subst h
      simp [insertA]
      tauto
    · simp [insertA, h, ih, or_assoc]

theorem nodup_keysA_insertA {l : List (String × α)} {k : String} {v : α}
    (nd : (keysA l).Nodup) : (keysA (insertA l k v)).Nodup := by
  induction l with
  | nil => simp [insertA, keysA]
  | cons kv t ih =>
    rcases kv with ⟨k2, v2⟩
    simp only [keysA_cons, List.nodup_cons] at nd
    by_cases h : k2 = k
    · subst h
      simp [insertA]
      exact ⟨nd.1, nd.2⟩
    · simp only [insertA, h, if_false, keysA_cons, List.nodup_cons]
      refine ⟨fun hmem => ?_, ih nd.2⟩
      rcases mem_keysA_insertA.mp hmem with h2 | h2
      · exact nd.1 h2
      · exact h h2

theorem keysA_map_snd (l : List (String × α)) (f : α → α) :
    keysA (l.map (fun kv => (kv.1, f kv.2))) = keysA l := by
  induction l with
  | nil => rfl
  | cons kv t ih => simp [keysA, ih]

theorem lookupA_map_snd (l : List (String × α)) (f : α → α) (k : String) :
    lookupA (l.map (fun kv => (kv.1, f kv.2))) k = (lookupA l k).map f := by
  induction l with
  | nil => simp [lookupA]
  | cons kv t ih =>
    rcases kv with ⟨k2, v2⟩
    by_cases h : k2 = k <;> simp [lookupA, h, ih]

theorem mem_keysA_filter {l : List (String × α)} {p : String × α → Bool}
    {k : String} :
    k ∈ keysA (l.filter p) ↔ ∃ v, (k, v) ∈ l ∧ p (k, v) = true := by
  rw [mem_keysA]
  constructor
  · rintro ⟨v, hv⟩
    rcases List.mem_filter.mp hv with ⟨h1, h2⟩
    exact ⟨v, h1, h2⟩
  · rintro ⟨v, h1, h2⟩
    exact ⟨v, List.mem_filter.mpr ⟨h1, h2⟩⟩

theorem nodup_keysA_filter {l : List (String × α)} {p : String × α → Bool}
    (nd : (keysA l).Nodup) : (keysA (l.filter p)).Nodup := by
  simp only [keysA] at nd ⊢
  exact List.Nodup.sublist ((List.filter_sublist l).map Prod.fst) nd

theorem nodup_keysA_map_snd {l : List (String × α)} {f : α → α}
    (nd : (keysA l).Nodup) :
    (keysA (l.map (fun kv => (kv.1, f kv.2)))).Nodup := by
  rw [keysA_map_snd]
  exact nd

theorem exists_lookupA_of_mem_keysA {l : List (String × α)} {k : String}
    (h : k ∈ keysA l) : ∃ v, lookupA l k = some v := by
  cases hv : lookupA l k with
  | none => exact absurd h (lookupA_eq_none.mp hv)
  | some v => exact ⟨v, rfl⟩

theorem lookupA_of_lookupA_filter {l : List (String × α)}
    {p : String × α → Bool} {k : String} {v : α} (nd : (keysA l).Nodup)
    (h : lookupA (l.filter p) k = some v) : lookupA l k = some v :=
  mem_lookupA nd (List.mem_filter.mp (lookupA_mem h)).1

end Registry

namespace CpustatLinux

theorem collectLine_times {s s2 : PerCPU} {f : List String} {now : ℚ}
    (h : collectLine s f now = some s2) :
    s2.User.times = now :: s.User.times ∧
    s2.UserLowPrio.times = now :: s.UserLowPrio.times ∧
    s2.System.times = now :: s.System.times ∧
    s2.Total.times = now :: s.Total.times := by
  rcases f with _ | ⟨f0, _ | ⟨f1, _ | ⟨f2, _ | ⟨f3, _ | ⟨f4, _ | ⟨f5,
    _ | ⟨f6, _ | ⟨f7, _ | ⟨f8, _ | ⟨f9, rest⟩⟩⟩⟩⟩⟩⟩⟩⟩⟩
  all_goals simp [collectLine, parseCPUline] at h
  subst h
  simp [populateComputedStats, Measure.Counter.set, Measure.Counter.times]

/-- Every reachable `PerCPU` state has its `User`, `UserLowPrio` and
`System` counters set at exactly the same times as its `Total` counter:
all ten counters are written together, once per accepted line. -/
theorem reach_times_eq {s : PerCPU} (h : Reach s) :
    s.User.times = s.Total.times ∧ s.UserLowPrio.times = s.Total.times ∧
    s.System.times = s.Total.times := by
  induction h with
  | init => exact ⟨rfl, rfl, rfl⟩
  | step f now hr heq ih =>
    obtain ⟨h1, h2, h3, h4⟩ := collectLine_times heq
    exact ⟨by rw [h1, h4, ih.1], by rw [h2, h4, ih.2.1], by rw [h3, h4, ih.2.2]⟩

/-- If the total rate is not greater than zero (including the NaN case),
all three derived statistics are NaN: the `x != math.NaN()` conjuncts of
the Go guards are identically true and only `t > 0` decides the
branch. -/
theorem stats_nan_of_not_pos {s : PerCPU}
    (h : s.Total.computeRate.gt (GoFloat.num 0) = false) :
    s.Usage = GoFloat.nan ∧ s.UserSpace = GoFloat.nan ∧
    s.Kernel = GoFloat.nan := by
  refine ⟨?_, ?_, ?_⟩ <;> simp [PerCPU.Usage, PerCPU.UserSpace, PerCPU.Kernel, h]

end CpustatLinux

namespace CpustatDarwin

theorem Collect_times (s : PerCPU) (info : Option HostCpuLoadInfo) (now : ℚ) :
    ((Collect s info now).User.times = (Collect s info now).Total.times ↔
      s.User.times = s.Total.times) ∧
    ((Collect s info now).UserLowPrio.times = (Collect s info now).Total.times ↔
      s.UserLowPrio.times = s.Total.times) ∧
    ((Collect s info now).System.times = (Collect s info now).Total.times ↔
      s.System.times = s.Total.times) := by
  cases info with
  | none => simp [Collect]
  | some i => simp [Collect, Measure.Counter.set, Measure.Counter.times]

/-- Mach-backend version of `reach_times_eq`. -/
theorem darwin_reach_times_eq {s : PerCPU} (h : Reach s) :
    s.User.times = s.Total.times ∧ s.UserLowPrio.times = s.Total.times ∧
    s.System.times = s.Total.times := by
  induction h with
  | init => exact ⟨rfl, rfl, rfl⟩
  | step info now hr ih =>
    obtain ⟨h1, h2, h3⟩ := Collect_times _ info now
    exact ⟨h1.mpr ih.1, h2.mpr ih.2.1, h3.mpr ih.2.2⟩

/-- Mach-backend version of `stats_nan_of_not_pos`. -/
theorem darwin_stats_nan_of_not_pos {s : PerCPU}
    (h : s.Total.computeRate.gt (GoFloat.num 0) = false) :
    s.Usage = GoFloat.nan ∧ s.UserSpace = GoFloat.nan ∧
    s.Kernel = GoFloat.nan := by
  refine ⟨?_, ?_, ?_⟩ <;> simp [PerCPU.Usage, PerCPU.UserSpace, PerCPU.Kernel, h]

end CpustatDarwin

theorem Measure.Counter.computeRate_nan_of_times_const {c : Measure.Counter}
    {now : ℚ} (h : ∀ x ∈ c.times, x = now) : c.computeRate = GoFloat.nan := by
  rw [Measure.Counter.computeRate_nan_iff]
  rcases c with ⟨hist⟩
  rcases hist with _ | ⟨⟨t2, v2⟩, _ | ⟨⟨t1, v1⟩, tl⟩⟩
  · trivial
  · trivial
  · have h2 := h t2 (by simp [Measure.Counter.times])
    have h1 := h t1 (by simp [Measure.Counter.times])
    simpa [Measure.Counter.times] using h2.trans h1.symm

namespace Fsstat

theorem lineStep_keys {stat : String → Option StatfsData}
    {reg reg2 : List (String × PerFSStat)} {f : List String}
    (h : lineStep stat reg f = some reg2) (k : String) :
    k ∈ Registry.keysA reg2 ↔
      k ∈ Registry.keysA reg ∨ acceptedKey f = some k := by
  rcases f with _ | ⟨f0, rest⟩
  · simp [lineStep] at h
  · by_cases hd : devExcluded f0
    · simp only [lineStep, hd, if_true, Option.some_inj] at h
      subst h
      rcases rest with _ | ⟨f1, _ | ⟨f2, _ | ⟨f3, r⟩⟩⟩ <;> simp [acceptedKey, hd]
    · rcases rest with _ | ⟨f1, _ | ⟨f2, _ | ⟨f3, r⟩⟩⟩
      · simp [lineStep, hd] at h
      · simp [lineStep, hd] at h
      · simp [lineStep, hd] at h
      · by_cases ho : optExcluded f3
        · simp [lineStep, hd, ho] at h
          subst h
          simp [acceptedKey, hd, ho]
        · simp [lineStep, hd, ho] at h
          subst h
          rw [Registry.mem_keysA_insertA]
          simp [acceptedKey, hd, ho, eq_comm]

theorem Collect_keys (lines : List (List String))
    (reg res : List (String × PerFSStat)) (stat : String → Option StatfsData)
    (h : Collect reg (some lines) stat = some res) (k : String) :
    k ∈ Registry.keysA res ↔
      k ∈ Registry.keysA reg ∨ ∃ f ∈ lines, acceptedKey f = some k := by
  induction lines generalizing reg with
  | nil =>
    simp only [Collect, List.foldlM_nil, Option.pure_def,
      Option.some_inj] at h
    subst h
    simp
  | cons l ls ih =>
    simp only [Collect, List.foldlM_cons, Option.bind_eq_bind,
      Option.bind_eq_some] at h
    obtain ⟨reg2, hstep, h⟩ := h
    have hih := ih reg2 (by exact h)
    rw [hih, lineStep_keys hstep k]
    constructor
    · rintro ((hr | hl) | ⟨f, hf, hk⟩)
      · exact Or.inl hr
      · exact Or.inr ⟨l, List.mem_cons_self _ _, hl⟩
      · exact Or.inr ⟨f, List.mem_cons_of_mem _ hf, hk⟩
    · rintro (hr | ⟨f, hf, hk⟩)
      · exact Or.inl (Or.inl hr)
      · rcases List.mem_cons.mp hf with rfl | hf
        · exact Or.inl (Or.inr hk)
        · exact Or.inr ⟨f, hf, hk⟩

end Fsstat

namespace Pidstat

@[simp] theorem dead_CollectAttributes (s : PerProcessStat) (a : ProcAttrs) :
    (CollectAttributes s a).dead = s.dead := rfl

@[simp] theorem userTime_CollectAttributes (s : PerProcessStat) (a : ProcAttrs) :
    (CollectAttributes s a).UserTime = s.UserTime := rfl

@[simp] theorem systemTime_CollectAttributes (s : PerProcessStat) (a : ProcAttrs) :
    (CollectAttributes s a).SystemTime = s.SystemTime := rfl

/-- `collectStep` touches no registry key other than the task's own. -/
theorem lookupA_collectStep_ne {now : ℚ} {cAttr : Bool}
    {reg : List (String × PerProcessStat)} {t : TaskInfo} {k : String}
    (h : taskKey t ≠ some k) :
    Registry.lookupA (collectStep now cAttr reg t) k = Registry.lookupA reg k := by
  cases htk : taskKey t with
  | none => simp [collectStep, htk]
  | some spid =>
    have hne : spid ≠ k := by
      rintro rfl
      exact h htk
    cases hb : t.basicInfo with
    | none => simp [collectStep, htk, hb]
    | some b =>
      cases ha : t.absoluteInfo with
      | none =>
        simp only [collectStep, htk, hb, ha]
        exact Registry.lookupA_insertA_ne _ _ hne
      | some a =>
        simp only [collectStep, htk, hb, ha]
        exact Registry.lookupA_insertA_ne _ _ hne

/-- `collectStep` preserves a dead tracked entry at key `k` whenever the
task at `k` (if this is its task) failed one of its two reads. -/
theorem collectStep_preserves_deadAt {now : ℚ} {cAttr : Bool}
    {reg : List (String × PerProcessStat)} {t : TaskInfo} {k : String}
    (htask : taskKey t = some k →
      t.basicInfo = none ∨ t.absoluteInfo = none)
    (h : ∃ e, Registry.lookupA reg k = some e ∧ e.dead = true) :
    ∃ e, Registry.lookupA (collectStep now cAttr reg t) k = some e ∧
      e.dead = true := by
  by_cases htk : taskKey t = some k
  · rcases htask htk with hb | ha
    · simp only [collectStep, htk, hb]
      exact h
    · obtain ⟨e, he, hd⟩ := h
      cases hb : t.basicInfo with
      | none =>
        simp only [collectStep, htk, hb]
        exact ⟨e, he, hd⟩
      | some b =>
        simp only [collectStep, htk, hb, ha, he, Option.isNone_some,
          Bool.or_false]
        refine ⟨_, Registry.lookupA_insertA_self _ _ _, ?_⟩
        cases cAttr <;> simp [hd]
  · rw [lookupA_collectStep_ne htk]
    exact h

theorem nodup_keysA_collectStep {now : ℚ} {cAttr : Bool}
    {reg : List (String × PerProcessStat)} {t : TaskInfo}
    (nd : (Registry.keysA reg).Nodup) :
    (Registry.keysA (collectStep now cAttr reg t)).Nodup := by
  cases htk : taskKey t with
  | none => simpa [collectStep, htk] using nd
  | some spid =>
    cases hb : t.basicInfo with
    | none => simpa [collectStep, htk, hb] using nd
    | some b =>
      cases ha : t.absoluteInfo with
      | none =>
        simp only [collectStep, htk, hb, ha]
        exact Registry.nodup_keysA_insertA nd
      | some a =>
        simp only [collectStep, htk, hb, ha]
        exact Registry.nodup_keysA_insertA nd

theorem nodup_keysA_foldl {now : ℚ} {cAttr : Bool} (tasks : List TaskInfo)
    (reg : List (String × PerProcessStat))
    (nd : (Registry.keysA reg).Nodup) :
    (Registry.keysA (tasks.foldl (collectStep now cAttr) reg)).Nodup := by
  induction tasks generalizing reg with
  | nil => exact nd
  | cons t ts ih => exact ih _ (nodup_keysA_collectStep nd)

theorem lookupA_markDead (reg : List (String × PerProcessStat)) (k : String) :
    Registry.lookupA (reg.map (fun kv => (kv.1, { kv.2 with dead := true }))) k
      = (Registry.lookupA reg k).map (fun v => { v with dead := true }) := by
  induction reg with
  | nil => simp [Registry.lookupA]
  | cons kv t ih =>
    rcases kv with ⟨k2, v2⟩
    by_cases h : k2 = k <;> simp [Registry.lookupA, h, ih]

theorem keysA_markDead (reg : List (String × PerProcessStat)) :
    Registry.keysA (reg.map (fun kv => (kv.1, { kv.2 with dead := true })))
      = Registry.keysA reg := by
  induction reg with
  | nil => rfl
  | cons kv t ih => simp [Registry.keysA, ih]

theorem nodup_keysA_markDead {reg : List (String × PerProcessStat)}
    (nd : (Registry.keysA reg).Nodup) :
    (Registry.keysA
      (reg.map (fun kv => (kv.1, { kv.2 with dead := true })))).Nodup := by
  rw [keysA_markDead]
  exact nd

/-- A task whose pid translation and both reads succeed leaves its key
live (present with `dead = false`). -/
theorem collectStep_revives {now : ℚ} {cAttr : Bool}
    {reg : List (String × PerProcessStat)} {t : TaskInfo} {k : String}
    {b : MachTaskBasicInfo} {a : TaskAbsolutetimeInfo}
    (htk : taskKey t = some k) (hb : t.basicInfo = some b)
    (ha : t.absoluteInfo = some a) :
    ∃ e, Registry.lookupA (collectStep now cAttr reg t) k = some e ∧
      e.dead = false := by
  simp only [collectStep, htk, hb, ha]
  exact ⟨_, Registry.lookupA_insertA_self _ _ _, rfl⟩

/-- No `collectStep` un-revives a key that is already live. -/
theorem collectStep_preserves_liveAt {now : ℚ} {cAttr : Bool}
    {reg : List (String × PerProcessStat)} {t : TaskInfo} {k : String}
    (h : ∃ e, Registry.lookupA reg k = some e ∧ e.dead = false) :
    ∃ e, Registry.lookupA (collectStep now cAttr reg t) k = some e ∧
      e.dead = false := by
  by_cases htk : taskKey t = some k
  · cases hb : t.basicInfo with
    | none =>
      simp only [collectStep, htk, hb]
      exact h
    | some b =>
      cases ha : t.absoluteInfo with
      | some a => exact collectStep_revives htk hb ha
      | none =>
        obtain ⟨e, he, hd⟩ := h
        simp only [collectStep, htk, hb, ha, he, Option.isNone_some,
          Bool.or_false]
        refine ⟨_, Registry.lookupA_insertA_self _ _ _, ?_⟩
        cases cAttr <;> simp [hd]
  · rw [lookupA_collectStep_ne htk]
    exact h

/-- Folding a task list whose tasks all fully succeed: a key ends up live
exactly when it was live already or some task in the list carries it. -/
theorem foldl_collectStep_liveAt_iff (now : ℚ) (cAttr : Bool)
    (tasks : List TaskInfo) (reg : List (String × PerProcessStat))
    (k : String)
    (hval : ∀ t ∈ tasks, (taskKey t).isSome ∧ t.basicInfo.isSome ∧
      t.absoluteInfo.isSome) :
    (∃ e, Registry.lookupA (tasks.foldl (collectStep now cAttr) reg) k =
        some e ∧ e.dead = false) ↔
      ((∃ e, Registry.lookupA reg k = some e ∧ e.dead = false) ∨
        ∃ t ∈ tasks, taskKey t = some k) := by
  induction tasks generalizing reg with
  | nil => simp
  | cons t ts ih =>
    obtain ⟨hk2, hbs, has⟩ := hval t (List.mem_cons_self _ _)
    obtain ⟨k2, htk⟩ := Option.isSome_iff_exists.mp hk2
    obtain ⟨b, hb⟩ := Option.isSome_iff_exists.mp hbs
    obtain ⟨a, ha⟩ := Option.isSome_iff_exists.mp has
    rw [List.foldl_cons,
      ih _ (fun t2 h2 => hval t2 (List.mem_cons_of_mem _ h2))]
    by_cases hkk : k2 = k
    · subst hkk
      constructor
      · intro _
        exact Or.inr ⟨t, List.mem_cons_self _ _, htk⟩
      · intro _
        exact Or.inl (collectStep_revives htk hb ha)
    · have hne : taskKey t ≠ some k := by
        rw [htk]
        simp [hkk]
      constructor
      · rintro (h | ⟨t2, ht2, hk2t⟩)
        · rw [lookupA_collectStep_ne hne] at h
          exact Or.inl h
        · exact Or.inr ⟨t2, List.mem_cons_of_mem _ ht2, hk2t⟩
      · rintro (h | ⟨t2, ht2, hk2t⟩)
        · refine Or.inl ?_
          rw [lookupA_collectStep_ne hne]
          exact h
        · rcases List.mem_cons.mp ht2 with rfl | ht2
          · exact absurd hk2t hne
          · exact Or.inr ⟨t2, ht2, hk2t⟩

/-- Folding the task list never gives the entity at key `k` a counter
sample with a timestamp other than `now`: a key absent before the pass
can only accumulate samples stamped `now`. -/
theorem foldl_collectStep_counters_now (now : ℚ) (cAttr : Bool)
    (tasks : List TaskInfo) (reg : List (String × PerProcessStat))
    (k : String)
    (h : ∀ e, Registry.lookupA reg k = some e →
      ((∀ x ∈ e.UserTime.times, x = now) ∧
        (∀ x ∈ e.SystemTime.times, x = now))) :
    ∀ e, Registry.lookupA (tasks.foldl (collectStep now cAttr) reg) k =
        some e →
      ((∀ x ∈ e.UserTime.times, x = now) ∧
        (∀ x ∈ e.SystemTime.times, x = now)) := by
  induction tasks generalizing reg with
  | nil => exact h
  | cons t ts ih =>
    refine ih _ ?_
    intro e he
    by_cases htk : taskKey t = some k
    · cases hb : t.basicInfo with
      | none =>
        simp only [collectStep, htk, hb] at he
        exact h e he
      | some b =>
        cases hl : Registry.lookupA reg k with
        | none =>
          cases ha : t.absoluteInfo with
          | none =>
            simp only [collectStep, htk, hb, ha, hl] at he
            rw [Registry.lookupA_insertA_self] at he
            injection he with he
            subst he
            cases cAttr <;>
              simp [NewPerProcessStat, CollectAttributes,
                Measure.Counter.times, Measure.Counter.empty]
          | some a =>
            simp only [collectStep, htk, hb, ha, hl] at he
            rw [Registry.lookupA_insertA_self] at he
            injection he with he
            subst he
            cases cAttr <;>
              simp [NewPerProcessStat, CollectAttributes,
                Measure.Counter.times, Measure.Counter.set,
                Measure.Counter.empty]
        | some e0 =>
          obtain ⟨hu0, hs0⟩ := h e0 hl
          cases ha : t.absoluteInfo with
          | none =>
            simp only [collectStep, htk, hb, ha, hl, Option.isNone_some,
              Bool.or_false] at he
            rw [Registry.lookupA_insertA_self] at he
            injection he with he
            subst he
            cases cAttr <;> simpa using ⟨hu0, hs0⟩
          | some a =>
            simp only [collectStep, htk, hb, ha, hl, Option.isNone_some,
              Bool.or_false] at he
            rw [Registry.lookupA_insertA_self] at he
            injection he with he
            subst he
            cases cAttr <;>
              simpa [List.forall_mem_cons] using ⟨hu0, hs0⟩
    · rw [lookupA_collectStep_ne htk] at he
      exact h e he

/-- `Collect` with successful host calls: mark, fold the task list, then
sweep. -/
theorem Collect_true_eq (reg : List (String × PerProcessStat))
    (tasks : List TaskInfo) (now : ℚ) (cAttr : Bool) :
    Collect reg true tasks now cAttr =
      (tasks.foldl (collectStep now cAttr)
        (reg.map (fun kv => (kv.1, { kv.2 with dead := true })))).filter
        (fun kv => !kv.2.dead) := rfl

theorem foldl_collectStep_deadAt {now : ℚ} {cAttr : Bool} {k : String}
    (tasks : List TaskInfo) (reg : List (String × PerProcessStat))
    (htasks : ∀ t ∈ tasks, taskKey t = some k →
      t.basicInfo = none ∨ t.absoluteInfo = none)
    (h : ∃ e, Registry.lookupA reg k = some e ∧ e.dead = true) :
    ∃ e, Registry.lookupA (tasks.foldl (collectStep now cAttr) reg) k =
      some e ∧ e.dead = true := by
  induction tasks generalizing reg with
  | nil => exact h
  | cons t ts ih =>
    exact ih _ (fun t2 ht2 => htasks t2 (List.mem_cons_of_mem _ ht2))
      (collectStep_preserves_deadAt (htasks t (List.mem_cons_self _ _)) h)

end Pidstat

/-- C1: for every PerCPU entity of either backend (procfs or Mach), in
every reachable counter state, whenever `Total.ComputeRate()` is not
greater than zero or any of the input rates (User, UserLowPrio, System,
Total) is NaN, the derived statistics `Usage()`, `UserSpace()` and
`Kernel()` all return NaN — never a spurious 0 or infinity; in particular
a total rate that is not positive (including the zero-elapsed and
first-sample NaN cases) yields NaN without dividing by zero. -/
theorem C1_derived_stats_nan_guard :
    (∀ s : CpustatLinux.PerCPU, CpustatLinux.Reach s →
      (s.Total.computeRate.gt (GoFloat.num 0) = false ∨
       s.User.computeRate = GoFloat.nan ∨
       s.UserLowPrio.computeRate = GoFloat.nan ∨
       s.System.computeRate = GoFloat.nan ∨
       s.Total.computeRate = GoFloat.nan) →
      s.Usage = GoFloat.nan ∧ s.UserSpace = GoFloat.nan ∧
      s.Kernel = GoFloat.nan) ∧
    (∀ s : CpustatDarwin.PerCPU, CpustatDarwin.Reach s →
      (s.Total.computeRate.gt (GoFloat.num 0) = false ∨
       s.User.computeRate = GoFloat.nan ∨
       s.UserLowPrio.computeRate = GoFloat.nan ∨
       s.System.computeRate = GoFloat.nan ∨
       s.Total.computeRate = GoFloat.nan) →
      s.Usage = GoFloat.nan ∧ s.UserSpace = GoFloat.nan ∧
      s.Kernel = GoFloat.nan) := by
  constructor
  · intro s hr hd
    obtain ⟨hu, hn, hs⟩ := CpustatLinux.reach_times_eq hr
    apply CpustatLinux.stats_nan_of_not_pos
    have hnan : s.Total.computeRate = GoFloat.nan →
        s.Total.computeRate.gt (GoFloat.num 0) = false := by
      intro h; rw [h]; exact GoFloat.gt_nan_left _
    rcases hd with h | h | h | h | h
    · exact h
    · exact hnan ((Measure.Counter.computeRate_nan_congr _ _ hu).mp h)
    · exact hnan ((Measure.Counter.computeRate_nan_congr _ _ hn).mp h)
    · exact hnan ((Measure.Counter.computeRate_nan_congr _ _ hs).mp h)
    · exact hnan h
  · intro s hr hd
    obtain ⟨hu, hn, hs⟩ := CpustatDarwin.darwin_reach_times_eq hr
    apply CpustatDarwin.darwin_stats_nan_of_not_pos
    have hnan : s.Total.computeRate = GoFloat.nan →
        s.Total.computeRate.gt (GoFloat.num 0) = false := by
      intro h; rw [h]; exact GoFloat.gt_nan_left _
    rcases hd with h | h | h | h | h
    · exact h
    · exact hnan ((Measure.Counter.computeRate_nan_congr _ _ hu).mp h)
    · exact hnan ((Measure.Counter.computeRate_nan_congr _ _ hn).mp h)
    · exact hnan ((Measure.Counter.computeRate_nan_congr _ _ hs).mp h)
    · exact hnan h

/-- Witness for C1 at a concrete reachable state: the freshly constructed
entity of each backend, whose rates are all NaN. -/
theorem C1_derived_stats_nan_guard_witness :
    CpustatLinux.NewPerCPU.Usage = GoFloat.nan ∧
    CpustatDarwin.PerCPUNew.Usage = GoFloat.nan :=
  ⟨(C1_derived_stats_nan_guard.1 CpustatLinux.NewPerCPU CpustatLinux.Reach.init
      (Or.inr (Or.inr (Or.inr (Or.inr rfl))))).1,
   (C1_derived_stats_nan_guard.2 CpustatDarwin.PerCPUNew CpustatDarwin.Reach.init
      (Or.inr (Or.inr (Or.inr (Or.inr rfl))))).1⟩

/-- C5 counterexample: pid 7 is tracked after a fully successful pass;
in the next pass its `TASK_ABSOLUTETIME_INFO` read fails.  The claim says
the entity stays live in the registry, but the registry is empty after
the pass: the entity was never un-marked dead and the sweep removed
it. -/
theorem C5_counterexample :
    Registry.keysA (Pidstat.Collect [] true
      [⟨some 7, some ⟨1, 2, 3⟩, some ⟨10, 20⟩, ⟨"x", 0, none⟩⟩] 0 false)
      = ["7"] ∧
    Registry.keysA
      (Pidstat.Collect
        (Pidstat.Collect [] true
          [⟨some 7, some ⟨1, 2, 3⟩, some ⟨10, 20⟩, ⟨"x", 0, none⟩⟩] 0 false)
        true
        [⟨some 7, some ⟨1, 2, 3⟩, none, ⟨"x", 0, none⟩⟩] 1 false)
      = [] := by
  constructor <;> decide

/-- C5 amended: if a previously tracked entity's per-entity raw read
fails mid-pass (its `task_info` call returns a non-success status), its
update is skipped for the tick, but the entity does not stay live: it is
never un-marked dead, so the sweep at the end of that same pass deletes
it from the registry. -/
theorem C5_failed_read_entity_swept
    (reg : List (String × Pidstat.PerProcessStat))
    (tasks : List Pidstat.TaskInfo) (now : ℚ) (cAttr : Bool) (k : String)
    (nd : (Registry.keysA reg).Nodup)
    (hk : k ∈ Registry.keysA reg)
    (htasks : ∀ t ∈ tasks, Pidstat.taskKey t = some k →
      t.basicInfo = none ∨ t.absoluteInfo = none) :
    k ∉ Registry.keysA (Pidstat.Collect reg true tasks now cAttr) := by
  intro hmem
  obtain ⟨v, hv⟩ := Registry.exists_lookupA_of_mem_keysA hk
  have hmarked : ∃ e, Registry.lookupA
      (reg.map (fun kv => (kv.1, { kv.2 with dead := true }))) k =
      some e ∧ e.dead = true :=
    ⟨{ v with dead := true }, by rw [Pidstat.lookupA_markDead, hv]; rfl, rfl⟩
  obtain ⟨e, he, hd⟩ :=
    @Pidstat.foldl_collectStep_deadAt now cAttr k tasks _ htasks hmarked
  have ndf := @Pidstat.nodup_keysA_foldl now cAttr tasks _
    (Pidstat.nodup_keysA_markDead nd)
  rw [Pidstat.Collect_true_eq] at hmem
  rcases Registry.mem_keysA_filter.mp hmem with ⟨v2, hv2, hp⟩
  have hlook := Registry.mem_lookupA ndf hv2
  rw [he] at hlook
  injection hlook with hveq
  subst hveq
  rw [hd] at hp
  simp at hp

/-- Witness for C5 amended at the concrete counterexample inputs. -/
theorem C5_failed_read_entity_swept_witness :
    "7" ∉ Registry.keysA
      (Pidstat.Collect
        (Pidstat.Collect [] true
          [⟨some 7, some ⟨1, 2, 3⟩, some ⟨10, 20⟩, ⟨"x", 0, none⟩⟩] 0 false)
        true
        [⟨some 7, some ⟨1, 2, 3⟩, none, ⟨"x", 0, none⟩⟩] 1 false) :=
  C5_failed_read_entity_swept _ _ 1 false "7" (by decide) (by decide)
    (by decide)

/-- C2 counterexample: the filesystem collector tracks mounts `/a` and
`/b`; the next pass discovers only `/a` (its accepted key set is
`["/a"]`), yet the registry still holds both keys — the stale `/b`
entity survives, so the registry's key set does not equal the discovered
key set. -/
theorem C2_counterexample :
    ((Fsstat.Collect []
        (some [["d1", "/a", "ext4", "rw"], ["d2", "/b", "ext4", "rw"]])
        (fun _ => none)).bind
      (fun reg => Fsstat.Collect reg (some [["d1", "/a", "ext4", "rw"]])
        (fun _ => none))).map Registry.keysA = some ["/a", "/b"] ∧
    [["d1", "/a", "ext4", "rw"]].filterMap Fsstat.acceptedKey = ["/a"] ∧
    (["/a", "/b"] : List String) ≠ ["/a"] := by
  refine ⟨by decide, by decide, by decide⟩

/-- C2 amended: the process collector reconciles exactly — after a pass
whose host-level discovery calls succeed and whose per-entity reads all
succeed, the registry's key set is exactly the set of discovered pid
keys (so keys not re-observed are deleted), and a key that was not
previously tracked maps to a newly constructed entity whose counters
carry no usable rate history (both time-counter rates are NaN).  The
filesystem collector, however, never deletes: after a pass its key set
is the previous key set plus the accepted mount keys, so a stale entity
survives every miss. -/
theorem C2_registry_reconciliation :
    (∀ (reg : List (String × Pidstat.PerProcessStat))
       (tasks : List Pidstat.TaskInfo) (now : ℚ) (cAttr : Bool),
      (Registry.keysA reg).Nodup →
      (∀ t ∈ tasks, (Pidstat.taskKey t).isSome ∧ t.basicInfo.isSome ∧
        t.absoluteInfo.isSome) →
      ∀ k, k ∈ Registry.keysA (Pidstat.Collect reg true tasks now cAttr) ↔
        ∃ t ∈ tasks, Pidstat.taskKey t = some k) ∧
    (∀ (reg : List (String × Pidstat.PerProcessStat))
       (tasks : List Pidstat.TaskInfo) (now : ℚ) (cAttr : Bool)
       (k : String) (e : Pidstat.PerProcessStat),
      (Registry.keysA reg).Nodup →
      k ∉ Registry.keysA reg →
      Registry.lookupA (Pidstat.Collect reg true tasks now cAttr) k = some e →
      e.UserTime.computeRate = GoFloat.nan ∧
        e.SystemTime.computeRate = GoFloat.nan) ∧
    (∀ (reg res : List (String × Fsstat.PerFSStat))
       (lines : List (List String)) (stat : String → Option Fsstat.StatfsData),
      Fsstat.Collect reg (some lines) stat = some res →
      ∀ k, k ∈ Registry.keysA res ↔
        k ∈ Registry.keysA reg ∨ ∃ f ∈ lines, Fsstat.acceptedKey f = some k) := by
  refine ⟨?_, ?_, ?_⟩
  · intro reg tasks now cAttr nd hval k
    rw [Pidstat.Collect_true_eq]
    have ndf := @Pidstat.nodup_keysA_foldl now cAttr tasks _
      (Pidstat.nodup_keysA_markDead nd)
    constructor
    · intro hmem
      rcases Registry.mem_keysA_filter.mp hmem with ⟨v, hv, hp⟩
      have hlook := Registry.mem_lookupA ndf hv
      have hlive : ∃ e, Registry.lookupA
          (tasks.foldl (Pidstat.collectStep now cAttr)
            (reg.map (fun kv => (kv.1, { kv.2 with dead := true })))) k =
          some e ∧ e.dead = false :=
        ⟨v, hlook, by simpa using hp⟩
      rcases (Pidstat.foldl_collectStep_liveAt_iff now cAttr tasks _ k
          hval).mp hlive with hl | hrev
      · obtain ⟨e, he, hd⟩ := hl
        rw [Pidstat.lookupA_markDead] at he
        cases hl0 : Registry.lookupA reg k with
        | none =>
          rw [hl0] at he
          simp at he
        | some e0 =>
          rw [hl0] at he
          injection he with he
          rw [← he] at hd
          simp at hd
      · exact hrev
    · intro hex
      have hlive := (Pidstat.foldl_collectStep_liveAt_iff now cAttr tasks
        (reg.map (fun kv => (kv.1, { kv.2 with dead := true }))) k
        hval).mpr (Or.inr hex)
      obtain ⟨e, he, hd⟩ := hlive
      exact Registry.mem_keysA_filter.mpr
        ⟨e, Registry.lookupA_mem he, by simp [hd]⟩
  · intro reg tasks now cAttr k e nd hk hlookup
    rw [Pidstat.Collect_true_eq] at hlookup
    have ndf := @Pidstat.nodup_keysA_foldl now cAttr tasks _
      (Pidstat.nodup_keysA_markDead nd)
    have hinit : ∀ e0, Registry.lookupA
        (reg.map (fun kv => (kv.1, { kv.2 with dead := true }))) k =
        some e0 →
        ((∀ x ∈ e0.UserTime.times, x = now) ∧
          (∀ x ∈ e0.SystemTime.times, x = now)) := by
      intro e0 he0
      rw [Pidstat.lookupA_markDead, Registry.lookupA_eq_none.mpr hk] at he0
      simp at he0
    have hc := Pidstat.foldl_collectStep_counters_now now cAttr tasks _ k
      hinit e (Registry.lookupA_of_lookupA_filter ndf hlookup)
    exact ⟨Measure.Counter.computeRate_nan_of_times_const hc.1,
      Measure.Counter.computeRate_nan_of_times_const hc.2⟩
  · intro reg res lines stat h k
    exact Fsstat.Collect_keys lines reg res stat h k

/-- Witness for C2 amended at concrete inputs: a fully successful
process pass over one task yields exactly its pid as registry key, and a
filesystem pass over one accepted mount line yields its mount point. -/
theorem C2_registry_reconciliation_witness :
    "7" ∈ Registry.keysA (Pidstat.Collect [] true
      [⟨some 7, some ⟨1, 2, 3⟩, some ⟨10, 20⟩, ⟨"x", 0, none⟩⟩] 0 false) ∧
    "/a" ∈ Registry.keysA [("/a", Fsstat.NewPerFSStat "/a")] := by
  constructor
  · exact (C2_registry_reconciliation.1 []
      [⟨some 7, some ⟨1, 2, 3⟩, some ⟨10, 20⟩, ⟨"x", 0, none⟩⟩] 0 false
      (by decide) (by decide) "7").mpr
      ⟨⟨some 7, some ⟨1, 2, 3⟩, some ⟨10, 20⟩, ⟨"x", 0, none⟩⟩,
        List.mem_cons_self _ _, by decide⟩
  · exact ((C2_registry_reconciliation.2.2 [] [("/a", Fsstat.NewPerFSStat "/a")]
      [["d1", "/a", "ext4", "rw"]] (fun _ => none) (by decide) "/a").mpr
      (Or.inr ⟨["d1", "/a", "ext4", "rw"], List.mem_cons_self _ _, by decide⟩))

/-- C3 counterexample: after a pass that set the `User` counter to 100,
a line whose user field is the malformed `"abc"` does not leave the
counter at its previous value: `ParseUint` returns 0 and the counter is
set to 0. -/
theorem C3_counterexample :
    ((CpustatLinux.collectLine CpustatLinux.NewPerCPU
        ["cpu", "100", "0", "50", "850", "0", "0", "0", "0", "0"] 0).map
      (fun s => s.User.get) = some 100) ∧
    (((CpustatLinux.collectLine CpustatLinux.NewPerCPU
        ["cpu", "100", "0", "50", "850", "0", "0", "0", "0", "0"] 0).bind
      (fun s => CpustatLinux.collectLine s
        ["cpu", "abc", "0", "50", "850", "0", "0", "0", "0", "0"] 1)).map
      (fun s => s.User.get) = some 0) ∧
    (0 : ℚ) ≠ 100 := by
  have h100 : Misc.ParseUint "100" = 100 := by decide
  have habc : Misc.ParseUint "abc" = 0 := by decide
  have h0 : Misc.ParseUint "0" = 0 := by decide
  have h50 : Misc.ParseUint "50" = 50 := by decide
  have h850 : Misc.ParseUint "850" = 850 := by decide
  refine ⟨?_, ?_, by norm_num⟩ <;>
    simp [CpustatLinux.collectLine, CpustatLinux.parseCPUline,
      CpustatLinux.populateComputedStats, CpustatLinux.NewPerCPU,
      Measure.Counter.set, Measure.Counter.get, Measure.Counter.empty,
      h100, habc, h0, h50, h850]

/-- C3 amended: when a parsed text field is malformed,
`misc.ParseUint` returns 0 and the caller sets the counter
unconditionally, so the counter is set to 0 for that tick — it is not
left at its previous value. -/
theorem C3_parse_failure_sets_zero :
    (∀ s : String, Misc.isGoUint s = false → Misc.ParseUint s = 0) ∧
    (∀ (st : CpustatLinux.PerCPU) (now : ℚ)
       (f0 f1 f2 f3 f4 f5 f6 f7 f8 f9 : String) (rest : List String)
       (s2 : CpustatLinux.PerCPU),
      CpustatLinux.parseCPUline st
        (f0 :: f1 :: f2 :: f3 :: f4 :: f5 :: f6 :: f7 :: f8 :: f9 :: rest)
        now = some s2 →
      Misc.isGoUint f1 = false →
      s2.User.get = 0) := by
  constructor
  · exact fun s h => Misc.ParseUint_of_not_isGoUint s h
  · intro st now f0 f1 f2 f3 f4 f5 f6 f7 f8 f9 rest s2 h hmal
    simp only [CpustatLinux.parseCPUline, Option.some_inj] at h
    subst h
    simp [Measure.Counter.get, Measure.Counter.set,
      Misc.ParseUint_of_not_isGoUint f1 hmal]

/-- Witness for C3 amended: the malformed field `"abc"` yields a zero
`User` counter value. -/
theorem C3_parse_failure_sets_zero_witness :
    Misc.ParseUint "abc" = 0 ∧
    ∀ s2 : CpustatLinux.PerCPU,
      CpustatLinux.parseCPUline CpustatLinux.NewPerCPU
        ["cpu", "abc", "0", "50", "850", "0", "0", "0", "0", "0"] 1 =
        some s2 → s2.User.get = 0 :=
  ⟨C3_parse_failure_sets_zero.1 "abc" (by decide),
   fun s2 h => C3_parse_failure_sets_zero.2 CpustatLinux.NewPerCPU 1
     "cpu" "abc" "0" "50" "850" "0" "0" "0" "0" "0" [] s2 h (by decide)⟩

/-- C4 counterexample: with the scenario's two samples (padded to the
ten fields the parser indexes; the bare five-field line would panic the
parser, last conjunct), the `Total` rate is 1000/s, not the claimed
900/s: `Total` is the sum user+nice+system+idle = 1000 then 2000, since
850 and 1700 are the idle fields. -/
theorem C4_counterexample :
    (((CpustatLinux.collectLine CpustatLinux.NewPerCPU
        ["cpu", "100", "0", "50", "850", "0", "0", "0", "0", "0"] 0).bind
      (fun s => CpustatLinux.collectLine s
        ["cpu", "200", "0", "100", "1700", "0", "0", "0", "0", "0"] 1)).map
      (fun s => s.Total.computeRate) = some (GoFloat.num 1000)) ∧
    GoFloat.num 1000 ≠ GoFloat.num 900 ∧
    CpustatLinux.collectLine CpustatLinux.NewPerCPU
      ["cpu", "100", "0", "50", "850"] 0 = none := by
  have h1 : Misc.ParseUint "100" = 100 := by decide
  have h2 : Misc.ParseUint "0" = 0 := by decide
  have h3 : Misc.ParseUint "50" = 50 := by decide
  have h4 : Misc.ParseUint "850" = 850 := by decide
  have h5 : Misc.ParseUint "200" = 200 := by decide
  have h6 : Misc.ParseUint "1700" = 1700 := by decide
  refine ⟨?_, by simp, by decide⟩
  simp [CpustatLinux.collectLine, CpustatLinux.parseCPUline,
    CpustatLinux.populateComputedStats, CpustatLinux.NewPerCPU,
    Measure.Counter.set, Measure.Counter.get, Measure.Counter.empty,
    Measure.Counter.computeRate, h1, h2, h3, h4, h5, h6]
  norm_num

/-- C4 amended: feeding the parser `cpu 100 0 50 850 0 0 0 0 0` and, one
second later, `cpu 200 0 100 1700 0 0 0 0 0` yields a User rate of
100/s and a System rate of 50/s as claimed, but a Total rate of 1000/s
(`Total = User + UserLowPrio + System + Idle`) and `Usage()` of exactly
15%, not 900/s and 16.67%. -/
theorem C4_end_to_end_scenario :
    (((CpustatLinux.collectLine CpustatLinux.NewPerCPU
        ["cpu", "100", "0", "50", "850", "0", "0", "0", "0", "0"] 0).bind
      (fun s => CpustatLinux.collectLine s
        ["cpu", "200", "0", "100", "1700", "0", "0", "0", "0", "0"] 1)).map
      (fun s => (s.User.computeRate, s.System.computeRate,
        s.Total.computeRate, s.Usage))) =
    some (GoFloat.num 100, GoFloat.num 50, GoFloat.num 1000,
      GoFloat.num 15) := by
  have h1 : Misc.ParseUint "100" = 100 := by decide
  have h2 : Misc.ParseUint "0" = 0 := by decide
  have h3 : Misc.ParseUint "50" = 50 := by decide
  have h4 : Misc.ParseUint "850" = 850 := by decide
  have h5 : Misc.ParseUint "200" = 200 := by decide
  have h6 : Misc.ParseUint "1700" = 1700 := by decide
  simp [CpustatLinux.collectLine, CpustatLinux.parseCPUline,
    CpustatLinux.populateComputedStats, CpustatLinux.NewPerCPU,
    CpustatLinux.PerCPU.Usage,
    Measure.Counter.set, Measure.Counter.get, Measure.Counter.empty,
    Measure.Counter.computeRate, h1, h2, h3, h4, h5, h6]
  norm_num [GoFloat.num_div_num_eq]

/-- C6 counterexample: when the quota file holds the kernel's negative
sentinel `-1`, `ReadUintFromFile` fails to parse it as an unsigned
integer and returns 0, so the stored quota gauge is 0 and `Quota()`
returns 0 — the ratio is not negative, contradicting the claim that the
raw negative sentinel is preserved. -/
theorem C6_counterexample :
    (Cgroup.collectCfsFiles (Cgroup.NewPerCgroupStat "/cg")
      (some ["100000"]) (some ["-1"])).Quota = GoFloat.num 0 ∧
    GoFloat.lt
      ((Cgroup.collectCfsFiles (Cgroup.NewPerCgroupStat "/cg")
        (some ["100000"]) (some ["-1"])).Quota) (GoFloat.num 0) = false := by
  have h1 : Misc.ReadUintFromFile (some ["100000"]) = 100000 := by decide
  have h2 : Misc.ReadUintFromFile (some ["-1"]) = 0 := by decide
  constructor <;>
    simp [Cgroup.collectCfsFiles, Cgroup.PerCgroupStat.Quota,
      Measure.Gauge.set, Measure.Gauge.get, h1, h2, GoFloat.div_def,
      GoFloat.div]

/-- C6 amended: `Quota()` returns the raw gauge ratio:
`cfsQuotaUs=200000, cfsPeriodUs=100000` gives 2.0; but an unset quota
(file content `-1`) is stored as 0 because the value is read through
`ParseUint`, so the resulting ratio is 0 (for a positive period), and in
general the stored values are unsigned, so `Quota()` is never
negative. -/
theorem C6_quota_ratio :
    (Cgroup.collectCfsFiles (Cgroup.NewPerCgroupStat "/cg")
      (some ["100000"]) (some ["200000"])).Quota = GoFloat.num 2 ∧
    (Cgroup.collectCfsFiles (Cgroup.NewPerCgroupStat "/cg")
      (some ["100000"]) (some ["-1"])).Quota = GoFloat.num 0 ∧
    ∀ (s : Cgroup.PerCgroupStat) (pf qf : Option (List String)),
      GoFloat.lt (Cgroup.collectCfsFiles s pf qf).Quota
        (GoFloat.num 0) = false := by
  have h1 : Misc.ReadUintFromFile (some ["100000"]) = 100000 := by decide
  have h2 : Misc.ReadUintFromFile (some ["-1"]) = 0 := by decide
  have h3 : Misc.ReadUintFromFile (some ["200000"]) = 200000 := by decide
  refine ⟨?_, ?_, ?_⟩
  · simp [Cgroup.collectCfsFiles, Cgroup.PerCgroupStat.Quota,
      Measure.Gauge.set, Measure.Gauge.get, h1, h3, GoFloat.div_def,
      GoFloat.div]
    norm_num
  · simp [Cgroup.collectCfsFiles, Cgroup.PerCgroupStat.Quota,
      Measure.Gauge.set, Measure.Gauge.get, h1, h2, GoFloat.div_def,
      GoFloat.div]
  · intro s pf qf
    simp only [Cgroup.collectCfsFiles, Cgroup.PerCgroupStat.Quota,
      Measure.Gauge.set, Measure.Gauge.get, GoFloat.div_def, GoFloat.div]
    split_ifs with hb ha
    · rfl
    · simp only [GoFloat.lt, Bool.not_eq_false', decide_eq_true_eq]
      exact lt_of_le_of_ne (Nat.cast_nonneg _) (Ne.symm ha)
    · simp only [GoFloat.lt, decide_eq_false_iff_not, not_lt]
      exact div_nonneg (Nat.cast_nonneg _) (Nat.cast_nonneg _)

/-- C7: the claim (and the function's own doc comment) say `Kernel()` is
computed from the aggregated system-time (`Stime`) tick rate, but the
body reads `Utime`.  Concretely: a cgroup whose single process
accumulates only system time (stime 50 → 150 over one second, utime
constantly 0, CLK_TCK = 100) has an `Stime` rate of 100 ticks/s, yet
`Kernel()` returns 0; indeed `Kernel` and `Userspace` are the same
function. -/
theorem C7_kernel_uses_user_ticks :
    (((Cgroup.getCgroupCPUTimes (Cgroup.NewPerCgroupStat "/cg")
        (some [some [["1", "(a)", "S", "0", "0", "0", "0", "0", "0", "0",
          "0", "0", "0", "0", "50"]]]) 0).bind
      (fun s => Cgroup.getCgroupCPUTimes s
        (some [some [["1", "(a)", "S", "0", "0", "0", "0", "0", "0", "0",
          "0", "0", "0", "0", "150"]]]) 1)).map
      (fun s => (s.Kernel 100, s.Stime.computeRate, s.Utime.computeRate)))
      = some (GoFloat.num 0, GoFloat.num 100, GoFloat.num 0) ∧
    ∀ (s : Cgroup.PerCgroupStat) (ticks : ℚ),
      s.Kernel ticks = s.Userspace ticks := by
  constructor
  · have h1 : Misc.ParseUint "0" = 0 := by decide
    have h2 : Misc.ParseUint "50" = 50 := by decide
    have h3 : Misc.ParseUint "150" = 150 := by decide
    simp [Cgroup.getCgroupCPUTimes, Cgroup.getCPUTimes,
      Cgroup.NewPerCgroupStat, Cgroup.PerCgroupStat.Kernel,
      Measure.Counter.set, Measure.Counter.empty,
      Measure.Counter.computeRate, h1, h2, h3]
    norm_num [GoFloat.num_div_num_eq, GoFloat.mul_def, GoFloat.mul]
  · intro s ticks
    rfl

/-- C8: the ticker loop (and its own comment, "always collect all
metrics for first two samples") promises full passes at ticks 0 and 1
regardless of the tracked-process count, but with 2048 tracked processes
(`p = 2048/1024 = 2`) tick 1 runs neither `Collect(true)` (only tick 0
does) nor `Collect(false)` (`1 % 2 ≠ 0`): no collection at all happens
on tick 1.  With fewer than 1024 tracked processes every tick runs a
full metric pass, and with `p = 2` ticks 0 and 2 do. -/
theorem C8_tick_one_skipped :
    Pidstat.tickDoesAttrPass 0 = true ∧
    Pidstat.tickDoesMetricPass 0 2048 = true ∧
    Pidstat.tickDoesAttrPass 1 = false ∧
    Pidstat.tickDoesMetricPass 1 2048 = false ∧
    Pidstat.tickDoesMetricPass 1 1023 = true ∧
    Pidstat.tickDoesMetricPass 5 1023 = true ∧
    Pidstat.tickDoesMetricPass 2 2048 = true := by
  decide

/-- C9: filesystem `Usage()` is `(Blocks - Bfree) / Blocks * 100`
computed from the stored gauges: a `statfs` result with 1000 blocks of
which 250 are free gives exactly 75.0, and with `Blocks = 0` there is no
guard — whatever the `Bfree` gauge holds, the result is NaN or a signed
infinity, never an error. -/
theorem C9_fs_usage :
    ((Fsstat.NewPerFSStat "/a").CollectFS
      (some ⟨4096, 1000, 250, 250, 100, 50⟩)).Usage = GoFloat.num 75 ∧
    ∀ (bsize bfree bavail files ffree : Measure.Gauge) (mp : String),
      Fsstat.PerFSStat.Usage
          ⟨bsize, ⟨GoFloat.num 0⟩, bfree, bavail, files, ffree, mp⟩ =
        GoFloat.nan ∨
      ∃ b, Fsstat.PerFSStat.Usage
          ⟨bsize, ⟨GoFloat.num 0⟩, bfree, bavail, files, ffree, mp⟩ =
        GoFloat.inf b := by
  constructor
  · simp [Fsstat.NewPerFSStat, Fsstat.PerFSStat.CollectFS,
      Fsstat.PerFSStat.Usage, Measure.Gauge.set, Measure.Gauge.get,
      GoFloat.num_div_num_eq]
    norm_num
  · intro bsize bfree bavail files ffree mp
    rcases bfree with ⟨val⟩
    cases val with
    | nan =>
      left
      rfl
    | inf b =>
      right
      refine ⟨decide ((!b) = decide ((0 : ℚ) ≤ 0)), ?_⟩
      simp only [Fsstat.PerFSStat.Usage, Measure.Gauge.get,
        GoFloat.sub_def, GoFloat.sub, GoFloat.neg, GoFloat.add_def,
        GoFloat.add, GoFloat.div_def, GoFloat.div,
        GoFloat.inf_mul_num_pos _ _ (by norm_num : (0 : ℚ) < 100)]
    | num q =>
      by_cases hq : q = 0
      · left
        subst hq
        simp [Fsstat.PerFSStat.Usage, Measure.Gauge.get, GoFloat.sub_def,
          GoFloat.sub, GoFloat.neg, GoFloat.add, GoFloat.div_def,
          GoFloat.div, GoFloat.mul_def, GoFloat.mul, GoFloat.add_def]
      · right
        refine ⟨decide ((0 : ℚ) < 0 + -q), ?_⟩
        have hnq : (0 : ℚ) + -q ≠ 0 := by simpa using hq
        simp only [Fsstat.PerFSStat.Usage, Measure.Gauge.get,
          GoFloat.sub_def, GoFloat.sub, GoFloat.neg, GoFloat.add_def,
          GoFloat.add, GoFloat.num_div_zero_ne _ hnq,
          GoFloat.inf_mul_num_pos _ _ (by norm_num : (0 : ℚ) < 100)]

/-- C10 counterexample: the `Total` counter is a uint64 sum, so the
claimed exact equality `Total = User + UserLowPrio + System + Idle`
fails when the four parsed fields sum to 2^64 or more: a line with user
ticks 2^64 - 1 and idle ticks 1 parses successfully, the exact
four-component sum is 2^64, but the stored `Total` wraps to 0. -/
theorem C10_counterexample :
    ((CpustatLinux.parseCPUline CpustatLinux.NewPerCPU
      ["cpu", "18446744073709551615", "0", "0", "1", "0", "0", "0", "0",
        "0"] 0).map
      (fun s2 => (s2.Total.get,
        s2.User.get + s2.UserLowPrio.get + s2.System.get + s2.Idle.get)))
      = some (0, 18446744073709551616) ∧
    (0 : ℚ) ≠ 18446744073709551616 := by
  have hbig : Misc.ParseUint "18446744073709551615" = 18446744073709551615 := by
    decide
  have h0 : Misc.ParseUint "0" = 0 := by decide
  have h1 : Misc.ParseUint "1" = 1 := by decide
  constructor
  · simp [CpustatLinux.parseCPUline, Measure.Counter.get,
      Measure.Counter.set, hbig, h0, h1]
    norm_num
  · norm_num

/-- C10 amended: on both backends, after every successful collection the
`Total` counter holds the uint64 sum of exactly the four components
User + UserLowPrio + System + Idle, taken modulo 2^64; the equality with
the exact four-component sum holds whenever those values sum below 2^64
(on the Mach backend always, because the tick counts are 32-bit), and
the iowait, irq, softirq, steal and guest fields are never included
(changing them does not change `Total`). -/
theorem C10_total_is_four_component_sum :
    (∀ (st : CpustatLinux.PerCPU) (now : ℚ)
       (x0 x1 x2 x3 x4 x5 x6 x7 x8 x9 : String) (rest : List String),
      (CpustatLinux.parseCPUline st
        (x0 :: x1 :: x2 :: x3 :: x4 :: x5 :: x6 :: x7 :: x8 :: x9 :: rest)
        now).map (fun s2 => s2.Total.get) =
      some (((Misc.ParseUint x1 + Misc.ParseUint x2 + Misc.ParseUint x3 +
        Misc.ParseUint x4) % 2 ^ 64 : ℕ))) ∧
    (∀ (st : CpustatLinux.PerCPU) (now : ℚ)
       (x0 x1 x2 x3 x4 x5 x6 x7 x8 x9 : String) (rest : List String)
       (s2 : CpustatLinux.PerCPU),
      CpustatLinux.parseCPUline st
        (x0 :: x1 :: x2 :: x3 :: x4 :: x5 :: x6 :: x7 :: x8 :: x9 :: rest)
        now = some s2 →
      Misc.ParseUint x1 + Misc.ParseUint x2 + Misc.ParseUint x3 +
        Misc.ParseUint x4 < 2 ^ 64 →
      s2.Total.get = s2.User.get + s2.UserLowPrio.get + s2.System.get +
        s2.Idle.get) ∧
    (∀ (st : CpustatLinux.PerCPU) (now : ℚ)
       (x0 x1 x2 x3 x4 a5 a6 a7 a8 a9 : String) (ar : List String)
       (b5 b6 b7 b8 b9 : String) (br : List String),
      (CpustatLinux.parseCPUline st
        (x0 :: x1 :: x2 :: x3 :: x4 :: a5 :: a6 :: a7 :: a8 :: a9 :: ar)
        now).map (fun s => s.Total) =
      (CpustatLinux.parseCPUline st
        (x0 :: x1 :: x2 :: x3 :: x4 :: b5 :: b6 :: b7 :: b8 :: b9 :: br)
        now).map (fun s => s.Total)) ∧
    (∀ (st : CpustatDarwin.PerCPU) (i : CpustatDarwin.HostCpuLoadInfo)
       (now : ℚ),
      i.userTicks < 2 ^ 32 → i.niceTicks < 2 ^ 32 →
      i.systemTicks < 2 ^ 32 → i.idleTicks < 2 ^ 32 →
      (CpustatDarwin.Collect st (some i) now).Total.get =
        (CpustatDarwin.Collect st (some i) now).User.get +
        (CpustatDarwin.Collect st (some i) now).UserLowPrio.get +
        (CpustatDarwin.Collect st (some i) now).System.get +
        (CpustatDarwin.Collect st (some i) now).Idle.get) := by
  refine ⟨?_, ?_, ?_, ?_⟩
  · intro st now x0 x1 x2 x3 x4 x5 x6 x7 x8 x9 rest
    simp [CpustatLinux.parseCPUline, Measure.Counter.get,
      Measure.Counter.set]
  · intro st now x0 x1 x2 x3 x4 x5 x6 x7 x8 x9 rest s2 h hlt
    simp only [CpustatLinux.parseCPUline, Option.some_inj] at h
    subst h
    simp only [Measure.Counter.get, Measure.Counter.set]
    rw [Nat.mod_eq_of_lt hlt]
    push_cast
    ring
  · intro st now x0 x1 x2 x3 x4 a5 a6 a7 a8 a9 ar b5 b6 b7 b8 b9 br
    simp [CpustatLinux.parseCPUline]
  · intro st i now hu hn hs hi
    have hlt : i.userTicks + i.systemTicks + i.niceTicks + i.idleTicks <
        2 ^ 64 := by
      norm_num at hu hn hs hi ⊢
      omega
    simp only [CpustatDarwin.Collect, Measure.Counter.get,
      Measure.Counter.set]
    rw [Nat.mod_eq_of_lt hlt]
    push_cast
    ring

/-- Witness for C10 amended: the no-overflow linux conjunct at a
concrete full `/proc/stat` line (fields summing to 1000), and the Mach
conjunct at in-range uint32 tick values. -/
theorem C10_total_is_four_component_sum_witness :
    ((CpustatLinux.parseCPUline CpustatLinux.NewPerCPU
      ["cpu", "100", "0", "50", "850", "7", "8", "9", "10", "11"] 0).map
      (fun s2 => decide (s2.Total.get = s2.User.get + s2.UserLowPrio.get +
        s2.System.get + s2.Idle.get)) = some true) ∧
    (CpustatDarwin.Collect CpustatDarwin.PerCPUNew
        (some ⟨100, 0, 50, 850⟩) 0).Total.get =
      (CpustatDarwin.Collect CpustatDarwin.PerCPUNew
        (some ⟨100, 0, 50, 850⟩) 0).User.get +
      (CpustatDarwin.Collect CpustatDarwin.PerCPUNew
        (some ⟨100, 0, 50, 850⟩) 0).UserLowPrio.get +
      (CpustatDarwin.Collect CpustatDarwin.PerCPUNew
        (some ⟨100, 0, 50, 850⟩) 0).System.get +
      (CpustatDarwin.Collect CpustatDarwin.PerCPUNew
        (some ⟨100, 0, 50, 850⟩) 0).Idle.get := by
  constructor
  · cases hp : CpustatLinux.parseCPUline CpustatLinux.NewPerCPU
        ["cpu", "100", "0", "50", "850", "7", "8", "9", "10", "11"] 0 with
    | none => exact absurd hp (by simp [CpustatLinux.parseCPUline])
    | some s2 =>
      have h := C10_total_is_four_component_sum.2.1 CpustatLinux.NewPerCPU 0
        "cpu" "100" "0" "50" "850" "7" "8" "9" "10" "11" [] s2 hp (by decide)
      simp [h]
  · exact C10_total_is_four_component_sum.2.2.2 CpustatDarwin.PerCPUNew
      ⟨100, 0, 50, 850⟩ 0 (by decide) (by decide) (by decide) (by decide)
